import Mathlib

/-!
Shallow embedding of the `heist` game contract
(`src/apps/contracts/heist/src/lib.rs` and `engine.rs`).

Modelling conventions:
* 18-byte bitsets (`BytesN<18>`, 144 bits, one per board cell) are modelled as
  `Finset ℕ` of the indices of the set bits; `bit_set` is `insert` and
  `bit_is_set` is membership.
* `u32` coordinates and counters are `ℕ` (all contract comparisons on them are
  order comparisons below 12/144 and never overflow); `i128` scores are `ℤ`
  with the explicit `checked_add` range test of the source kept.
* Addresses and 32-byte hashes are opaque `ℕ` values.
* keccak256-based derivations (`compute_state_hash`, `roll_value`,
  `compute_turn_public_hash`), the seeded PRNG draw of the map generator and
  the external ZK verifier are external/cryptographic capabilities; they are
  passed in as an explicit `Oracle` (resp. a draw function for `generate_map`)
  and all theorems quantify over them.
* Ledger storage for one session is a single `Game` value: each entry point is
  a function from the stored `Game` (plus the call arguments and the ledger
  timestamp `now`) to a result together with the `Game` left in storage.
-/

set_option maxRecDepth 4000
set_option maxHeartbeats 1000000
set_option linter.unnecessarySeqFocus false

namespace Heist

/-- `MAP_W` from `engine.rs`. -/
def MAP_W : ℕ := 12

/-- `MAP_H` from `engine.rs`. -/
def MAP_H : ℕ := 12

/-- `CELL_COUNT` from `engine.rs` (144 cells). -/
def CELL_COUNT : ℕ := MAP_W * MAP_H

/-- `CAMERA_PENALTY` from `engine.rs`. -/
def CAMERA_PENALTY : ℤ := 1

/-- `LASER_PENALTY` from `engine.rs`. -/
def LASER_PENALTY : ℤ := 2

/-- `u64::MAX`, used by `end_if_finished` as the sentinel deadline. -/
def U64_MAX : ℕ := 2 ^ 64 - 1

/-- `i128::MIN` as an integer. -/
def I128_MIN : ℤ := -(2 ^ 127)

/-- `i128::MAX` as an integer. -/
def I128_MAX : ℤ := 2 ^ 127 - 1

/-- `Position` struct of the contract (`x`, `y` are `u32`). -/
structure Position where
  x : ℕ
  y : ℕ
deriving DecidableEq, Repr

/-- `Camera` hazard struct of the contract. -/
structure Camera where
  x : ℕ
  y : ℕ
  radius : ℕ
deriving DecidableEq, Repr

/-- `Laser` hazard struct of the contract (axis-aligned segment endpoints). -/
structure Laser where
  x1 : ℕ
  y1 : ℕ
  x2 : ℕ
  y2 : ℕ
deriving DecidableEq, Repr

/-- `GameStatus` enum of the contract. -/
inductive GameStatus where
  | WaitingReveal
  | Active
  | Ended
deriving DecidableEq, Repr

/-- `Error` enum of the contract. -/
inductive Error where
  | GameNotFound
  | NotPlayer
  | GameAlreadyStarted
  | GameAlreadyEnded
  | InvalidSeedReveal
  | SeedAlreadyRevealed
  | SeedsNotReady
  | NotActivePlayer
  | InvalidTurnData
  | InvalidMoveLength
  | InvalidNoPathFlag
  | InvalidScoreDelta
  | LootAlreadyCollected
  | LootOutOfBounds
  | StateHashMismatch
  | TimerExpired
  | InvalidStatus
  | ProofRequired
deriving DecidableEq, Repr

/-- The stored `Game` record (one per session). Bitset fields are sets of set
bit indices; addresses and hashes are opaque naturals. -/
structure Game where
  player1 : ℕ
  player2 : ℕ
  player1_points : ℤ
  player2_points : ℤ
  status : GameStatus
  p1_seed_commit : ℕ
  p2_seed_commit : ℕ
  p1_seed_reveal : Option ℕ
  p2_seed_reveal : Option ℕ
  session_seed : Option ℕ
  started_at_ts : Option ℕ
  deadline_ts : Option ℕ
  turn_index : ℕ
  active_player : ℕ
  player1_pos : Position
  player2_pos : Position
  player1_score : ℤ
  player2_score : ℤ
  walls : Finset ℕ
  loot : Finset ℕ
  loot_collected : Finset ℕ
  fog_p1 : Finset ℕ
  fog_p2 : Finset ℕ
  cameras : List Camera
  lasers : List Laser
  winner : Option ℕ
  last_proof_id : Option ℕ
deriving DecidableEq

/-- The `TurnPublic` struct submitted with every turn. -/
structure TurnPublic where
  session_id : ℕ
  turn_index : ℕ
  player : ℕ
  start_pos : Position
  end_pos : Position
  rolled_value : ℕ
  score_delta : ℤ
  camera_hits : ℕ
  laser_hits : ℕ
  loot_collected_mask_delta : Finset ℕ
  no_path_flag : Bool
  state_hash_before : ℕ
  state_hash_after : ℕ
  path : List Position
deriving DecidableEq

/-- External cryptographic/collaborator capabilities used by `submit_turn`:
`compute_state_hash`, `roll_value`, `compute_turn_public_hash` (all
keccak-based in the source) and the external ZK verifier call. Every theorem
quantifies over the oracle. -/
structure Oracle where
  stateHash : ℕ → Game → ℕ
  rollValue : ℕ → ℕ → ℕ → ℕ
  turnHash : TurnPublic → ℕ
  verify : List ℕ → ℕ → ℕ

/-- `idx` from `engine.rs`: `y * MAP_W + x`. -/
def idx (x y : ℕ) : ℕ := y * MAP_W + x

/-- `abs_diff` from `engine.rs`. -/
def abs_diff (a b : ℕ) : ℕ := if a > b then a - b else b - a

/-- `is_walkable` from `engine.rs`: in bounds and not a wall. Signed (`i32`)
coordinates are modelled with `ℤ`. -/
def is_walkable (walls : Finset ℕ) (x y : ℤ) : Bool :=
  if x < 0 ∨ y < 0 ∨ (MAP_W : ℤ) ≤ x ∨ (MAP_H : ℤ) ≤ y then false
  else !(decide (idx x.toNat y.toNat ∈ walls))

/-- `has_any_path` from `engine.rs`: depth-bounded existence of a walkable
cell sequence of exactly `steps` steps. NOTE (faithful to the source): the
`steps == 0` base case returns `true` before any walkability check, so the
cell stepped onto in the final step is never tested. -/
def has_any_path (walls : Finset ℕ) (x y : ℤ) : ℕ → Bool
  | 0 => true
  | steps + 1 =>
    if !(is_walkable walls x y) then false
    else
      has_any_path walls (x + 1) y steps || has_any_path walls (x - 1) y steps ||
        has_any_path walls x (y + 1) steps || has_any_path walls x (y - 1) steps

/-- `exists_any_path_len` from `engine.rs`. -/
def exists_any_path_len (walls : Finset ℕ) (start : Position) (steps : ℕ) : Bool :=
  has_any_path walls (start.x : ℤ) (start.y : ℤ) steps

/-- `has_any_set_bit` from `engine.rs`: some bit of the bitset is set. -/
def has_any_set_bit (bits : Finset ℕ) : Bool := decide (bits ≠ ∅)

/-- `is_full_collection` from `engine.rs`: every loot bit is collected
(`l & !c == 0` bytewise). -/
def is_full_collection (loot collected : Finset ℕ) : Bool := decide (loot ⊆ collected)

/-- Clamped lower end of the fog reveal interval
(`if c >= 2 { c - 2 } else { 0 }` in `reveal_fog_4x4`). -/
def fog_lo (c : ℕ) : ℕ := if c ≥ 2 then c - 2 else 0

/-- Clamped upper end of the fog reveal interval
(`if c + 2 < limit { c + 2 } else { limit - 1 }` in `reveal_fog_4x4`). -/
def fog_hi (c limit : ℕ) : ℕ := if c + 2 < limit then c + 2 else limit - 1

/-- `reveal_fog_4x4` from `engine.rs`: sets every bit in the clamped symmetric
5×5 square centred on `(cx, cy)`. The two nested `while` loops are the two
folds over the inclusive coordinate ranges. -/
def reveal_fog_4x4 (fog : Finset ℕ) (cx cy : ℕ) : Finset ℕ :=
  let sx := fog_lo cx
  let sy := fog_lo cy
  let ex := fog_hi cx MAP_W
  let ey := fog_hi cy MAP_H
  (List.range' sx (ex + 1 - sx)).foldl
    (fun f x => (List.range' sy (ey + 1 - sy)).foldl (fun f2 y => insert (idx x y) f2) f)
    fog

/-- `near_spawn` from `engine.rs`: inside the 3×3 neighbourhood of either
spawn corner `(1,1)` or `(MAP_W-2, MAP_H-2) = (10,10)`. -/
def near_spawn (x y : ℕ) : Bool :=
  decide ((abs_diff x 1 ≤ 1 ∧ abs_diff y 1 ≤ 1) ∨
    (abs_diff x (MAP_W - 2) ≤ 1 ∧ abs_diff y (MAP_H - 2) ≤ 1))

/-- Result record of `generate_map`. -/
structure GenMap where
  walls : Finset ℕ
  loot : Finset ℕ
  cameras : List Camera
  lasers : List Laser

/-- Wall-placement loop of `generate_map` (`while i < 500 && placed < 18`).
`draw tag i` stands for the seeded keccak draw `seeded_u32(seed, tag, i)`;
`fuel` counts the remaining draw budget (initially 500). -/
def wall_loop (draw : ℕ → ℕ → ℕ) : ℕ → ℕ → ℕ → Finset ℕ → Finset ℕ
  | 0, _, _, walls => walls
  | fuel + 1, i, placed, walls =>
    if placed < 18 then
      let r := draw 1 i
      let x := r % MAP_W
      let y := (r / MAP_W) % MAP_H
      if ¬ near_spawn x y ∧ idx x y ∉ walls then
        wall_loop draw fuel (i + 1) (placed + 1) (insert (idx x y) walls)
      else
        wall_loop draw fuel (i + 1) placed walls
    else walls

/-- Loot-placement loop of `generate_map` (`while j < 1000 && placed < 24`). -/
def loot_loop (draw : ℕ → ℕ → ℕ) (walls : Finset ℕ) : ℕ → ℕ → ℕ → Finset ℕ → Finset ℕ
  | 0, _, _, loot => loot
  | fuel + 1, j, placed, loot =>
    if placed < 24 then
      let r := draw 2 j
      let x := r % MAP_W
      let y := (r / MAP_W) % MAP_H
      if ¬ near_spawn x y ∧ idx x y ∉ walls ∧ idx x y ∉ loot then
        loot_loop draw walls fuel (j + 1) (placed + 1) (insert (idx x y) loot)
      else
        loot_loop draw walls fuel (j + 1) placed loot
    else loot

/-- Camera-placement loop of `generate_map` (`while c < 3`). -/
def camera_loop (draw : ℕ → ℕ → ℕ) : ℕ → ℕ → List Camera → List Camera
  | 0, _, acc => acc
  | fuel + 1, c, acc =>
    let r := draw 3 c
    let x := r % MAP_W
    let y := (r / MAP_W) % MAP_H
    if ¬ near_spawn x y then
      camera_loop draw fuel (c + 1) (acc ++ [{ x := x, y := y, radius := 2 }])
    else
      camera_loop draw fuel (c + 1) acc

/-- Laser-placement loop of `generate_map` (`while l < 2`). -/
def laser_loop (draw : ℕ → ℕ → ℕ) : ℕ → ℕ → List Laser → List Laser
  | 0, _, acc => acc
  | fuel + 1, l, acc =>
    let r := draw 4 l
    if r % 2 = 0 then
      let y := (r / 17) % MAP_H
      if y > 1 ∧ y < MAP_H - 2 then
        laser_loop draw fuel (l + 1)
          (acc ++ [{ x1 := 1, y1 := y, x2 := MAP_W - 2, y2 := y }])
      else laser_loop draw fuel (l + 1) acc
    else
      let x := (r / 17) % MAP_W
      if x > 1 ∧ x < MAP_W - 2 then
        laser_loop draw fuel (l + 1)
          (acc ++ [{ x1 := x, y1 := 1, x2 := x, y2 := MAP_H - 2 }])
      else laser_loop draw fuel (l + 1) acc

/-- `generate_map` from `engine.rs`, parameterised by the seeded draw
function `draw tag i = seeded_u32(seed, tag, i)`. Total by construction:
exhausting a draw budget simply yields fewer objects. -/
def generate_map (draw : ℕ → ℕ → ℕ) : GenMap :=
  { walls := wall_loop draw 500 0 0 ∅
    loot := loot_loop draw (wall_loop draw 500 0 0 ∅) 1000 0 0 ∅
    cameras := camera_loop draw 3 0 []
    lasers := laser_loop draw 2 0 [] }

/-- Cell/adjacency check loop of `validate_path` (`lib.rs`): walks the path
carrying the previous cell; checks bounds, then the wall bit, then (from the
second cell on) that the Manhattan distance to the previous cell is exactly 1. -/
def path_cells_ok (walls : Finset ℕ) : Option Position → List Position → Bool
  | _, [] => true
  | prev, p :: rest =>
    if p.x ≥ MAP_W ∨ p.y ≥ MAP_H then false
    else if idx p.x p.y ∈ walls then false
    else
      match prev with
      | some q =>
        if abs_diff p.x q.x + abs_diff p.y q.y ≠ 1 then false
        else path_cells_ok walls (some p) rest
      | none => path_cells_ok walls (some p) rest

/-- `validate_path` from `lib.rs`: partial-move rule — the path includes the
start cell, so the valid length is `2 ..= rolled + 1`; every cell must be in
bounds and off-wall, and consecutive cells orthogonally adjacent. -/
def validate_path (walls : Finset ℕ) (path : List Position) (rolled : ℕ) : Bool :=
  if path.length < 2 ∨ path.length > rolled + 1 then false
  else path_cells_ok walls none path

/-- `collect_loot_delta_from_path` from `lib.rs`: the loot-delta bitset the
contract derives itself — the path cells that hold declared, not yet
collected loot. Already-collected cells are traversable and simply skipped. -/
def collect_loot_delta_from_path (loot loot_collected : Finset ℕ) (path : List Position) :
    Finset ℕ :=
  path.foldl
    (fun delta p =>
      if idx p.x p.y ∈ loot ∧ idx p.x p.y ∉ loot_collected then insert (idx p.x p.y) delta
      else delta)
    ∅

/-- `path_hits_camera` from `lib.rs`: some path cell is within the camera's
Manhattan radius. -/
def path_hits_camera (path : List Position) (camera : Camera) : Bool :=
  path.any fun p =>
    decide (abs_diff p.x camera.x + abs_diff p.y camera.y ≤ camera.radius)

/-- `path_hits_laser` from `lib.rs`: some path cell lies on the laser's
axis-aligned segment (vertical branch first, else horizontal, else none). -/
def path_hits_laser (path : List Position) (laser : Laser) : Bool :=
  path.any fun p =>
    if laser.x1 = laser.x2 then
      decide (p.x = laser.x1 ∧ laser.y1 ≤ p.y ∧ p.y ≤ laser.y2)
    else if laser.y1 = laser.y2 then
      decide (p.y = laser.y1 ∧ laser.x1 ≤ p.x ∧ p.x ≤ laser.x2)
    else false

/-- `compute_hazard_hits` from `lib.rs`: per-hazard-instance booleans summed
across hazards (the two counter loops). -/
def compute_hazard_hits (path : List Position) (cameras : List Camera) (lasers : List Laser) :
    ℕ × ℕ :=
  (cameras.countP (fun cam => path_hits_camera path cam),
   lasers.countP (fun laser => path_hits_laser path laser))

/-- `i128::checked_add` on modelled scores. -/
def checked_add_i128 (a b : ℤ) : Option ℤ :=
  if a + b < I128_MIN ∨ I128_MAX < a + b then none else some (a + b)

/-- The loot-delta reconciliation loop of `submit_turn`
(`while i < CELL_COUNT` over the delta bits): rejects a delta bit outside the
declared loot (`LootOutOfBounds`) or already collected
(`LootAlreadyCollected`), otherwise marks it collected and counts a point.
`fuel` is `CELL_COUNT - i`. -/
def apply_loot_delta (loot delta : Finset ℕ) :
    ℕ → ℕ → Finset ℕ → ℕ → Except Error (Finset ℕ × ℕ)
  | 0, _, collected, points => .ok (collected, points)
  | fuel + 1, i, collected, points =>
    if i ∈ delta then
      if i ∉ loot then .error .LootOutOfBounds
      else if i ∈ collected then .error .LootAlreadyCollected
      else apply_loot_delta loot delta fuel (i + 1) (insert i collected) (points + 1)
    else apply_loot_delta loot delta fuel (i + 1) collected points

/-- `end_if_finished` from `lib.rs`, as the storage transition it performs on
an existing session (the call itself always returns `Ok` for an existing
session; the hub notification is external). -/
def end_if_finished (now : ℕ) (g : Game) : Game :=
  if g.status = GameStatus.Ended then g
  else
    let deadline := g.deadline_ts.getD U64_MAX
    let timeout := decide (deadline ≤ now)
    let all_loot_collected := is_full_collection g.loot g.loot_collected
    if !timeout && !all_loot_collected then g
    else
      let player1_won := decide (g.player2_score ≤ g.player1_score)
      { g with
        status := GameStatus.Ended
        winner := some (if player1_won then g.player1 else g.player2) }

/-- The position of the submitting player (`current_pos` in `submit_turn`). -/
def current_pos_of (player : ℕ) (g : Game) : Position :=
  if player = g.player1 then g.player1_pos else g.player2_pos

/-- The fail-fast validation prefix of `submit_turn` (`lib.rs` lines 396–470):
everything checked before the external verifier is invoked. `none` means all
these checks passed. -/
def submit_checks (O : Oracle) (now session_id player : ℕ) (proof_blob : List ℕ)
    (pt : TurnPublic) (g : Game) : Option Error :=
  if g.status ≠ GameStatus.Active then some .GameAlreadyEnded
  else if g.deadline_ts.getD 0 ≤ now then some .TimerExpired
  else if player ≠ g.active_player then some .NotActivePlayer
  else if pt.player ≠ player ∨ pt.session_id ≠ session_id then some .InvalidTurnData
  else if pt.turn_index ≠ g.turn_index then some .InvalidTurnData
  else if proof_blob.length = 0 then some .ProofRequired
  else if pt.state_hash_before ≠ O.stateHash session_id g then some .StateHashMismatch
  else
    let current_pos := current_pos_of player g
    if pt.start_pos ≠ current_pos then some .InvalidTurnData
    else
      match g.session_seed with
      | none => some .SeedsNotReady
      | some seed =>
        let rolled := O.rollValue seed g.turn_index (if player = g.player1 then 1 else 2)
        if rolled ≠ pt.rolled_value then some .InvalidMoveLength
        else if pt.no_path_flag then
          if pt.start_pos ≠ pt.end_pos ∨ pt.score_delta ≠ 0 ∨ pt.camera_hits ≠ 0 ∨
              pt.laser_hits ≠ 0 ∨ has_any_set_bit pt.loot_collected_mask_delta ∨
              pt.path.length ≠ 1 ∨ pt.path.getD 0 ⟨0, 0⟩ ≠ pt.start_pos then
            some .InvalidNoPathFlag
          else if exists_any_path_len g.walls current_pos 1 then some .InvalidNoPathFlag
          else none
        else
          if !(validate_path g.walls pt.path rolled) then some .InvalidMoveLength
          else if pt.path.getD (pt.path.length - 1) ⟨0, 0⟩ ≠ pt.end_pos then
            some .InvalidMoveLength
          else none

/-- The post-verifier half of `submit_turn` (`lib.rs` lines 481–556):
loot-delta derivation and reconciliation, hazard reconciliation, mask and
score-delta reconciliation, state application, after-digest check. On error
nothing is saved; on `ok` the returned game is the one saved. -/
def submit_apply (O : Oracle) (session_id player : ℕ) (pt : TurnPublic) (proof_id : ℕ)
    (g : Game) : Except Error Game :=
  let loot_delta :=
    if pt.no_path_flag then ∅
    else collect_loot_delta_from_path g.loot g.loot_collected pt.path
  match apply_loot_delta g.loot loot_delta CELL_COUNT 0 g.loot_collected 0 with
  | .error e => .error e
  | .ok (collected, loot_points) =>
    let expected_hits :=
      if pt.no_path_flag then (0, 0) else compute_hazard_hits pt.path g.cameras g.lasers
    if pt.camera_hits ≠ expected_hits.1 ∨ pt.laser_hits ≠ expected_hits.2 then
      .error .InvalidTurnData
    else if pt.loot_collected_mask_delta ≠ loot_delta then .error .InvalidTurnData
    else
      let expected_delta : ℤ :=
        (loot_points : ℤ) - (pt.camera_hits : ℤ) * CAMERA_PENALTY -
          (pt.laser_hits : ℤ) * LASER_PENALTY
      if expected_delta ≠ pt.score_delta then .error .InvalidScoreDelta
      else
        if player = g.player1 then
          match checked_add_i128 g.player1_score pt.score_delta with
          | none => .error .InvalidScoreDelta
          | some s =>
            let g2 : Game :=
              { g with
                loot_collected := collected
                player1_pos := pt.end_pos
                player1_score := s
                fog_p1 := reveal_fog_4x4 g.fog_p1 pt.end_pos.x pt.end_pos.y
                active_player := g.player2
                turn_index := g.turn_index + 1
                last_proof_id := some proof_id }
            if O.stateHash session_id g2 ≠ pt.state_hash_after then .error .StateHashMismatch
            else .ok g2
        else
          match checked_add_i128 g.player2_score pt.score_delta with
          | none => .error .InvalidScoreDelta
          | some s =>
            let g2 : Game :=
              { g with
                loot_collected := collected
                player2_pos := pt.end_pos
                player2_score := s
                fog_p2 := reveal_fog_4x4 g.fog_p2 pt.end_pos.x pt.end_pos.y
                active_player := g.player1
                turn_index := g.turn_index + 1
                last_proof_id := some proof_id }
            if O.stateHash session_id g2 ≠ pt.state_hash_after then .error .StateHashMismatch
            else .ok g2

/-- Outcome of one `submit_turn` call: the returned result, the `Game` left in
storage, and whether the external verifier was invoked. -/
structure SubmitOutcome where
  res : Option Error
  stored : Game
  verifierCalled : Bool
deriving DecidableEq

/-- `submit_turn` from `lib.rs`. `TimerExpired` is the only rejection path
that writes storage first (it forces `end_if_finished` before rejecting —
and it is the only check that produces `TimerExpired`); every other rejection
leaves the stored game untouched. On success the saved game additionally goes
through the trailing `end_if_finished` call. -/
def submit_turn (O : Oracle) (now session_id player : ℕ) (proof_blob : List ℕ)
    (pt : TurnPublic) (g : Game) : SubmitOutcome :=
  match submit_checks O now session_id player proof_blob pt g with
  | some .TimerExpired =>
    { res := some .TimerExpired, stored := end_if_finished now g, verifierCalled := false }
  | some e => { res := some e, stored := g, verifierCalled := false }
  | none =>
    let proof_id := O.verify proof_blob (O.turnHash pt)
    match submit_apply O session_id player pt proof_id g with
    | .error e => { res := some e, stored := g, verifierCalled := true }
    | .ok g2 =>
      { res := none, stored := end_if_finished now g2, verifierCalled := true }

/-! ### Specification-side predicates

These follow the spec's wording and are compared against the embedded code. -/

/-- Spec wording (PathValidator): the cell is in bounds and not a wall. -/
def cell_ok (walls : Finset ℕ) (p : Position) : Prop :=
  p.x < MAP_W ∧ p.y < MAP_H ∧ idx p.x p.y ∉ walls

/-- Spec wording (PathValidator): consecutive cells differ by exactly one step
in one axis (Manhattan distance 1). -/
def step_adjacent (a b : Position) : Prop :=
  abs_diff b.x a.x + abs_diff b.y a.y = 1

/-- Spec wording (FogOfWar): the clamped symmetric square neighbourhood of
`(cx, cy)`, clipped to board bounds, as a set of cell-bit indices. -/
def fog_square (cx cy : ℕ) : Finset ℕ :=
  (Finset.range CELL_COUNT).filter fun b =>
    fog_lo cx ≤ b % MAP_W ∧ b % MAP_W ≤ fog_hi cx MAP_W ∧
      fog_lo cy ≤ b / MAP_W ∧ b / MAP_W ≤ fog_hi cy MAP_H

/-- Spec wording (HazardEngine): the cell is within the camera's Manhattan
radius. -/
def camera_sees (camera : Camera) (p : Position) : Prop :=
  abs_diff p.x camera.x + abs_diff p.y camera.y ≤ camera.radius

/-- Spec wording (HazardEngine): the cell lies on the laser's axis-aligned
segment — shared x within `[y1, y2]` for a vertical laser, else shared y
within `[x1, x2]` for a horizontal one. -/
def on_laser_segment (laser : Laser) (p : Position) : Prop :=
  (laser.x1 = laser.x2 ∧ p.x = laser.x1 ∧ laser.y1 ≤ p.y ∧ p.y ≤ laser.y2) ∨
    (laser.x1 ≠ laser.x2 ∧ laser.y1 = laser.y2 ∧ p.y = laser.y1 ∧
      laser.x1 ≤ p.x ∧ p.x ≤ laser.x2)

instance (cam : Camera) (p : Position) : Decidable (camera_sees cam p) :=
  inferInstanceAs (Decidable (abs_diff p.x cam.x + abs_diff p.y cam.y ≤ cam.radius))

instance (laser : Laser) (p : Position) : Decidable (on_laser_segment laser p) := by
  unfold on_laser_segment
  infer_instance

/-- The conjunction of all `submit_turn` checks that precede the verifier
call, written declaratively: session active, timer not expired, caller is the
active player, turn binding (player / session / index / before-digest / start
position), proof present, dice value, and the path or no-path validation. -/
def verifier_precondition (O : Oracle) (now session_id player : ℕ) (proof_blob : List ℕ)
    (pt : TurnPublic) (g : Game) : Prop :=
  g.status = GameStatus.Active ∧
  now < g.deadline_ts.getD 0 ∧
  player = g.active_player ∧
  pt.player = player ∧ pt.session_id = session_id ∧
  pt.turn_index = g.turn_index ∧
  proof_blob ≠ [] ∧
  pt.state_hash_before = O.stateHash session_id g ∧
  pt.start_pos = current_pos_of player g ∧
  ∃ seed, g.session_seed = some seed ∧
    pt.rolled_value = O.rollValue seed g.turn_index (if player = g.player1 then 1 else 2) ∧
    (if pt.no_path_flag then
      pt.start_pos = pt.end_pos ∧ pt.score_delta = 0 ∧ pt.camera_hits = 0 ∧
        pt.laser_hits = 0 ∧ pt.loot_collected_mask_delta = ∅ ∧
        pt.path = [pt.start_pos] ∧
        exists_any_path_len g.walls (current_pos_of player g) 1 = false
    else
      validate_path g.walls pt.path pt.rolled_value = true ∧
        pt.path.getD (pt.path.length - 1) ⟨0, 0⟩ = pt.end_pos)

/-! ### Concrete instances used as witnesses and counterexamples -/

/-- A concrete oracle: constant hashes, dice always 1, a fixed proof id. -/
def trivOracle : Oracle :=
  { stateHash := fun _ _ => 0
    rollValue := fun _ _ _ => 1
    turnHash := fun _ => 0
    verify := fun _ _ => 7 }

/-- A concrete freshly-begun active session: players `1` and `2`, spawn
positions, empty board bitsets, deadline `100`. -/
def baseGame : Game :=
  { player1 := 1
    player2 := 2
    player1_points := 50
    player2_points := 50
    status := GameStatus.Active
    p1_seed_commit := 0
    p2_seed_commit := 0
    p1_seed_reveal := some 0
    p2_seed_reveal := some 0
    session_seed := some 0
    started_at_ts := some 0
    deadline_ts := some 100
    turn_index := 0
    active_player := 1
    player1_pos := ⟨1, 1⟩
    player2_pos := ⟨10, 10⟩
    player1_score := 0
    player2_score := 0
    walls := ∅
    loot := ∅
    loot_collected := ∅
    fog_p1 := ∅
    fog_p2 := ∅
    cameras := []
    lasers := []
    winner := none
    last_proof_id := none }

/-- `baseGame` with player one fully boxed in: walls on all four orthogonal
neighbours of the spawn cell `(1,1)` — bits 1 = (1,0), 12 = (0,1),
14 = (2,1), 25 = (1,2). -/
def boxedGame : Game :=
  { baseGame with walls := {idx 1 0, idx 0 1, idx 2 1, idx 1 2} }

/-- The well-formed no-path claim for `boxedGame`: all side-effect fields
zero, path = the single start cell. -/
def boxedTurn : TurnPublic :=
  { session_id := 0
    turn_index := 0
    player := 1
    start_pos := ⟨1, 1⟩
    end_pos := ⟨1, 1⟩
    rolled_value := 1
    score_delta := 0
    camera_hits := 0
    laser_hits := 0
    loot_collected_mask_delta := ∅
    no_path_flag := false
    state_hash_before := 0
    state_hash_after := 0
    path := [⟨1, 1⟩] }

/-- A fully valid single-step turn for player one on `baseGame`. -/
def okTurn : TurnPublic :=
  { boxedTurn with
    end_pos := ⟨1, 2⟩
    path := [⟨1, 1⟩, ⟨1, 2⟩] }

/-! ### Helper lemmas -/

lemma path_cells_ok_some_iff (walls : Finset ℕ) :
    ∀ (l : List Position) (q : Position),
      path_cells_ok walls (some q) l = true ↔
        (∀ p ∈ l, cell_ok walls p) ∧ List.Chain step_adjacent q l := by
  intro l
  induction l with
  | nil => intro q; simp [path_cells_ok]
  | cons p rest ih =>
    intro q
    have hunf : path_cells_ok walls (some q) (p :: rest) =
        (if p.x ≥ MAP_W ∨ p.y ≥ MAP_H then false
         else if idx p.x p.y ∈ walls then false
         else if abs_diff p.x q.x + abs_diff p.y q.y ≠ 1 then false
         else path_cells_ok walls (some p) rest) := rfl
    rw [hunf]
    split_ifs with h1 h2 h3
    · simp only [Bool.false_eq_true, false_iff, not_and]
      intro hcells
      rcases hcells p (List.mem_cons_self p rest) with ⟨hx, hy, -⟩
      omega
    · simp only [Bool.false_eq_true, false_iff, not_and]
      intro hcells
      exact absurd h2 (hcells p (List.mem_cons_self p rest)).2.2
    · simp only [Bool.false_eq_true, false_iff, not_and]
      intro _ hchain
      rw [List.chain_cons] at hchain
      exact h3 hchain.1
    · push_neg at h1 h3
      rw [ih, List.chain_cons]
      constructor
      · rintro ⟨hcells, hchain⟩
        refine ⟨?_, h3, hchain⟩
        intro r hr
        rcases List.mem_cons.mp hr with rfl | hr
        · exact ⟨by omega, by omega, h2⟩
        · exact hcells r hr
      · rintro ⟨hcells, -, hchain⟩
        exact ⟨fun r hr => hcells r (List.mem_cons_of_mem p hr), hchain⟩

lemma path_cells_ok_none_iff (walls : Finset ℕ) (l : List Position) :
    path_cells_ok walls none l = true ↔
      (∀ p ∈ l, cell_ok walls p) ∧ List.Chain' step_adjacent l := by
  cases l with
  | nil => simp [path_cells_ok]
  | cons p rest =>
    have hred : List.Chain' step_adjacent (p :: rest) ↔ List.Chain step_adjacent p rest :=
      Iff.rfl
    have hunf : path_cells_ok walls none (p :: rest) =
        (if p.x ≥ MAP_W ∨ p.y ≥ MAP_H then false
         else if idx p.x p.y ∈ walls then false
         else path_cells_ok walls (some p) rest) := rfl
    rw [hunf, hred]
    split_ifs with h1 h2
    · simp only [Bool.false_eq_true, false_iff, not_and]
      intro hcells
      rcases hcells p (List.mem_cons_self p rest) with ⟨hx, hy, -⟩
      omega
    · simp only [Bool.false_eq_true, false_iff, not_and]
      intro hcells
      exact absurd h2 (hcells p (List.mem_cons_self p rest)).2.2
    · push_neg at h1
      rw [path_cells_ok_some_iff]
      constructor
      · rintro ⟨hcells, hchain⟩
        refine ⟨?_, hchain⟩
        intro r hr
        rcases List.mem_cons.mp hr with rfl | hr
        · exact ⟨by omega, by omega, h2⟩
        · exact hcells r hr
      · rintro ⟨hcells, hchain⟩
        exact ⟨fun r hr => hcells r (List.mem_cons_of_mem p hr), hchain⟩
lemma mem_foldl_insert_col (x : ℕ) :
    ∀ (n a : ℕ) (f : Finset ℕ) (b : ℕ),
      b ∈ (List.range' a n).foldl (fun f2 y => insert (idx x y) f2) f ↔
        b ∈ f ∨ ∃ y, a ≤ y ∧ y < a + n ∧ b = idx x y := by
  intro n
  induction n with
  | zero =>
    intro a f b
    simp only [List.range', List.foldl_nil]
    constructor
    · exact Or.inl
    · rintro (hb | ⟨y, hy1, hy2, rfl⟩)
      · exact hb
      · omega
  | succ m ih =>
    intro a f b
    rw [List.range'_succ, List.foldl_cons, ih]
    simp only [Finset.mem_insert]
    constructor
    · rintro (⟨rfl | hb⟩ | ⟨y, hy1, hy2, rfl⟩)
      · exact Or.inr ⟨a, le_refl a, by omega, rfl⟩
      · exact Or.inl hb
      · exact Or.inr ⟨y, by omega, by omega, rfl⟩
    · rintro (hb | ⟨y, hy1, hy2, rfl⟩)
      · exact Or.inl (Or.inr hb)
      · by_cases hya : y = a
        · subst hya; exact Or.inl (Or.inl rfl)
        · exact Or.inr ⟨y, by omega, by omega, rfl⟩

lemma mem_foldl_insert_grid (sy n : ℕ) :
    ∀ (m a : ℕ) (f : Finset ℕ) (b : ℕ),
      b ∈ (List.range' a m).foldl
          (fun f2 x => (List.range' sy n).foldl (fun f3 y => insert (idx x y) f3) f2) f ↔
        b ∈ f ∨ ∃ x y, a ≤ x ∧ x < a + m ∧ sy ≤ y ∧ y < sy + n ∧ b = idx x y := by
  intro m
  induction m with
  | zero =>
    intro a f b
    simp only [List.range', List.foldl_nil]
    constructor
    · exact Or.inl
    · rintro (hb | ⟨x, y, hx1, hx2, hy1, hy2, rfl⟩)
      · exact hb
      · omega
  | succ k ih =>
    intro a f b
    rw [List.range'_succ, List.foldl_cons, ih]
    rw [mem_foldl_insert_col]
    constructor
    · rintro ((hb | ⟨y, hy1, hy2, rfl⟩) | ⟨x, y, hx1, hx2, hy1, hy2, rfl⟩)
      · exact Or.inl hb
      · exact Or.inr ⟨a, y, le_refl a, by omega, hy1, by omega, rfl⟩
      · exact Or.inr ⟨x, y, by omega, by omega, hy1, hy2, rfl⟩
    · rintro (hb | ⟨x, y, hx1, hx2, hy1, hy2, rfl⟩)
      · exact Or.inl (Or.inl hb)
      · by_cases hxa : x = a
        · subst hxa; exact Or.inl (Or.inr ⟨y, hy1, by omega, rfl⟩)
        · exact Or.inr ⟨x, y, by omega, by omega, hy1, by omega, rfl⟩

lemma mem_reveal_fog (fog : Finset ℕ) (cx cy b : ℕ) :
    b ∈ reveal_fog_4x4 fog cx cy ↔
      b ∈ fog ∨ ∃ x y, fog_lo cx ≤ x ∧ x ≤ fog_hi cx MAP_W ∧
        fog_lo cy ≤ y ∧ y ≤ fog_hi cy MAP_H ∧ b = idx x y := by
  unfold reveal_fog_4x4
  rw [mem_foldl_insert_grid]
  constructor
  · rintro (hb | ⟨x, y, hx1, hx2, hy1, hy2, rfl⟩)
    · exact Or.inl hb
    · exact Or.inr ⟨x, y, hx1, by omega, hy1, by omega, rfl⟩
  · rintro (hb | ⟨x, y, hx1, hx2, hy1, hy2, rfl⟩)
    · exact Or.inl hb
    · exact Or.inr ⟨x, y, hx1, by omega, hy1, by omega, rfl⟩

lemma fog_hi_lt (c limit : ℕ) (hl : 0 < limit) : fog_hi c limit < limit := by
  unfold fog_hi
  split_ifs with h <;> omega

lemma wall_loop_card (draw : ℕ → ℕ → ℕ) :
    ∀ (fuel i placed : ℕ) (walls : Finset ℕ),
      (wall_loop draw fuel i placed walls).card ≤ walls.card + (18 - placed) := by
  intro fuel
  induction fuel with
  | zero => intro i placed walls; simp [wall_loop]
  | succ n ih =>
    intro i placed walls
    unfold wall_loop
    dsimp only
    split_ifs with h1 h2
    · calc (wall_loop draw n (i + 1) (placed + 1)
            (insert (idx (draw 1 i % MAP_W) ((draw 1 i / MAP_W) % MAP_H)) walls)).card
          ≤ (insert (idx (draw 1 i % MAP_W) ((draw 1 i / MAP_W) % MAP_H)) walls).card +
              (18 - (placed + 1)) := ih _ _ _
        _ ≤ walls.card + 1 + (18 - (placed + 1)) := by
            exact Nat.add_le_add_right (Finset.card_insert_le _ _) _
        _ ≤ walls.card + (18 - placed) := by omega
    · exact le_trans (ih _ _ _) (by omega)
    · omega

lemma wall_loop_mem (draw : ℕ → ℕ → ℕ) :
    ∀ (fuel i placed : ℕ) (walls : Finset ℕ) (b : ℕ),
      b ∈ wall_loop draw fuel i placed walls →
        b ∈ walls ∨ (b < CELL_COUNT ∧ near_spawn (b % MAP_W) (b / MAP_W) = false) := by
  intro fuel
  induction fuel with
  | zero => intro i placed walls b hb; exact Or.inl hb
  | succ n ih =>
    intro i placed walls b hb
    unfold wall_loop at hb
    dsimp only at hb
    split_ifs at hb with h1 h2
    · rcases ih _ _ _ _ hb with hmem | hrest
      · rcases Finset.mem_insert.mp hmem with rfl | hmem
        · right
          have hx : draw 1 i % MAP_W < MAP_W := Nat.mod_lt _ (by norm_num [MAP_W])
          have hy : (draw 1 i / MAP_W) % MAP_H < MAP_H := Nat.mod_lt _ (by norm_num [MAP_H])
          have hb12 : idx (draw 1 i % MAP_W) ((draw 1 i / MAP_W) % MAP_H) % MAP_W =
              draw 1 i % MAP_W := by
            unfold idx MAP_W at *; omega
          have hb12' : idx (draw 1 i % MAP_W) ((draw 1 i / MAP_W) % MAP_H) / MAP_W =
              (draw 1 i / MAP_W) % MAP_H := by
            unfold idx MAP_W at *; omega
          rw [hb12, hb12']
          refine ⟨?_, by simpa using h2.1⟩
          unfold idx CELL_COUNT MAP_W MAP_H at *; omega
        · exact Or.inl hmem
      · exact Or.inr hrest
    · exact ih _ _ _ _ hb
    · exact Or.inl hb

lemma loot_loop_card (draw : ℕ → ℕ → ℕ) (walls : Finset ℕ) :
    ∀ (fuel j placed : ℕ) (loot : Finset ℕ),
      (loot_loop draw walls fuel j placed loot).card ≤ loot.card + (24 - placed) := by
  intro fuel
  induction fuel with
  | zero => intro j placed loot; simp [loot_loop]
  | succ n ih =>
    intro j placed loot
    unfold loot_loop
    dsimp only
    split_ifs with h1 h2
    · calc (loot_loop draw walls n (j + 1) (placed + 1)
            (insert (idx (draw 2 j % MAP_W) ((draw 2 j / MAP_W) % MAP_H)) loot)).card
          ≤ (insert (idx (draw 2 j % MAP_W) ((draw 2 j / MAP_W) % MAP_H)) loot).card +
              (24 - (placed + 1)) := ih _ _ _
        _ ≤ loot.card + 1 + (24 - (placed + 1)) := by
            exact Nat.add_le_add_right (Finset.card_insert_le _ _) _
        _ ≤ loot.card + (24 - placed) := by omega
    · exact le_trans (ih _ _ _) (by omega)
    · omega

lemma loot_loop_mem (draw : ℕ → ℕ → ℕ) (walls : Finset ℕ) :
    ∀ (fuel j placed : ℕ) (loot : Finset ℕ) (b : ℕ),
      b ∈ loot_loop draw walls fuel j placed loot →
        b ∈ loot ∨ (b < CELL_COUNT ∧ near_spawn (b % MAP_W) (b / MAP_W) = false ∧ b ∉ walls) := by
  intro fuel
  induction fuel with
  | zero => intro j placed loot b hb; exact Or.inl hb
  | succ n ih =>
    intro j placed loot b hb
    unfold loot_loop at hb
    dsimp only at hb
    split_ifs at hb with h1 h2
    · rcases ih _ _ _ _ hb with hmem | hrest
      · rcases Finset.mem_insert.mp hmem with rfl | hmem
        · right
          have hx : draw 2 j % MAP_W < MAP_W := Nat.mod_lt _ (by norm_num [MAP_W])
          have hy : (draw 2 j / MAP_W) % MAP_H < MAP_H := Nat.mod_lt _ (by norm_num [MAP_H])
          have hb12 : idx (draw 2 j % MAP_W) ((draw 2 j / MAP_W) % MAP_H) % MAP_W =
              draw 2 j % MAP_W := by
            unfold idx MAP_W at *; omega
          have hb12' : idx (draw 2 j % MAP_W) ((draw 2 j / MAP_W) % MAP_H) / MAP_W =
              (draw 2 j / MAP_W) % MAP_H := by
            unfold idx MAP_W at *; omega
          rw [hb12, hb12']
          refine ⟨?_, by simpa using h2.1, h2.2.1⟩
          unfold idx CELL_COUNT MAP_W MAP_H at *; omega
        · exact Or.inl hmem
      · exact Or.inr hrest
    · exact ih _ _ _ _ hb
    · exact Or.inl hb

lemma camera_loop_length (draw : ℕ → ℕ → ℕ) :
    ∀ (fuel c : ℕ) (acc : List Camera),
      (camera_loop draw fuel c acc).length ≤ acc.length + fuel := by
  intro fuel
  induction fuel with
  | zero => intro c acc; simp [camera_loop]
  | succ n ih =>
    intro c acc
    unfold camera_loop
    dsimp only
    split_ifs with h1
    · exact le_trans (ih _ _) (by omega)
    · have hstep := ih (c + 1)
        (acc ++ [{ x := draw 3 c % MAP_W, y := (draw 3 c / MAP_W) % MAP_H, radius := 2 }])
      simp only [List.length_append, List.length_singleton] at hstep
      omega

lemma camera_loop_mem (draw : ℕ → ℕ → ℕ) :
    ∀ (fuel c : ℕ) (acc : List Camera) (cam : Camera),
      cam ∈ camera_loop draw fuel c acc →
        cam ∈ acc ∨ near_spawn cam.x cam.y = false := by
  intro fuel
  induction fuel with
  | zero => intro c acc cam h; exact Or.inl h
  | succ n ih =>
    intro c acc cam h
    unfold camera_loop at h
    dsimp only at h
    split_ifs at h with h1
    · exact ih _ _ _ h
    · rcases ih _ _ _ h with hmem | hns
      · rcases List.mem_append.mp hmem with hmem | hmem
        · exact Or.inl hmem
        · right
          rcases List.mem_singleton.mp hmem with rfl
          simpa using h1
      · exact Or.inr hns

lemma laser_loop_length (draw : ℕ → ℕ → ℕ) :
    ∀ (fuel l : ℕ) (acc : List Laser),
      (laser_loop draw fuel l acc).length ≤ acc.length + fuel := by
  intro fuel
  induction fuel with
  | zero => intro l acc; simp [laser_loop]
  | succ n ih =>
    intro l acc
    unfold laser_loop
    dsimp only
    split_ifs with h1 h2 h3
    · exact le_trans (ih _ _) (by simp; omega)
    · exact le_trans (ih _ _) (by omega)
    · exact le_trans (ih _ _) (by simp; omega)
    · exact le_trans (ih _ _) (by omega)

lemma path_hits_camera_iff (path : List Position) (cam : Camera) :
    path_hits_camera path cam = true ↔ ∃ p ∈ path, camera_sees cam p := by
  simp [path_hits_camera, camera_sees]

lemma path_hits_laser_iff (path : List Position) (laser : Laser) :
    path_hits_laser path laser = true ↔ ∃ p ∈ path, on_laser_segment laser p := by
  unfold path_hits_laser
  rw [List.any_eq_true]
  constructor
  · rintro ⟨p, hp, hpred⟩
    refine ⟨p, hp, ?_⟩
    by_cases h1 : laser.x1 = laser.x2
    · rw [if_pos h1] at hpred
      exact Or.inl ⟨h1, of_decide_eq_true hpred⟩
    · rw [if_neg h1] at hpred
      by_cases h2 : laser.y1 = laser.y2
      · rw [if_pos h2] at hpred
        rcases of_decide_eq_true hpred with ⟨hy, hx1, hx2⟩
        exact Or.inr ⟨h1, h2, hy, hx1, hx2⟩
      · rw [if_neg h2] at hpred
        cases hpred
  · rintro ⟨p, hp, hseg⟩
    refine ⟨p, hp, ?_⟩
    rcases hseg with ⟨h1, hrest⟩ | ⟨h1, h2, hrest⟩
    · rw [if_pos h1]
      exact decide_eq_true hrest
    · rw [if_neg h1, if_pos h2]
      exact decide_eq_true hrest

lemma mem_collect_loot_delta (loot collected : Finset ℕ) (path : List Position) :
    ∀ b ∈ collect_loot_delta_from_path loot collected path, b ∈ loot ∧ b ∉ collected := by
  unfold collect_loot_delta_from_path
  suffices h : ∀ (acc : Finset ℕ),
      (∀ b ∈ acc, b ∈ loot ∧ b ∉ collected) →
      ∀ b ∈ path.foldl
        (fun delta p =>
          if idx p.x p.y ∈ loot ∧ idx p.x p.y ∉ collected then insert (idx p.x p.y) delta
          else delta) acc,
        b ∈ loot ∧ b ∉ collected by
    exact h ∅ (by simp)
  induction path with
  | nil => intro acc hacc b hb; exact hacc b hb
  | cons p rest ih =>
    intro acc hacc b hb
    rw [List.foldl_cons] at hb
    refine ih _ ?_ b hb
    intro c hc
    split_ifs at hc with hcond
    · rcases Finset.mem_insert.mp hc with rfl | hc
      · exact hcond
      · exact hacc c hc
    · exact hacc c hc

lemma apply_loot_delta_ok (loot delta : Finset ℕ) :
    ∀ (fuel i : ℕ) (collected : Finset ℕ) (points : ℕ),
      (∀ b ∈ delta, b ∈ loot) → (∀ b ∈ delta, b ∈ collected → b < i) →
      ∃ out, apply_loot_delta loot delta fuel i collected points = Except.ok out := by
  intro fuel
  induction fuel with
  | zero => intro i collected points _ _; exact ⟨_, rfl⟩
  | succ n ih =>
    intro i collected points hloot hcol
    unfold apply_loot_delta
    split_ifs with h1 h2 h3
    · exact absurd (hcol i h1 h3) (by omega)
    · refine ih (i + 1) (insert i collected) (points + 1) hloot ?_
      intro b hb hbc
      rcases Finset.mem_insert.mp hbc with rfl | hbc
      · omega
      · exact lt_trans (hcol b hb hbc) (by omega)
    · exact absurd (hloot i h1) h2
    · refine ih (i + 1) collected points hloot ?_
      intro b hb hbc
      exact lt_trans (hcol b hb hbc) (by omega)

lemma apply_loot_delta_error (loot delta : Finset ℕ) :
    ∀ (fuel i : ℕ) (collected : Finset ℕ) (points : ℕ) (e : Error),
      apply_loot_delta loot delta fuel i collected points = Except.error e →
        e = Error.LootOutOfBounds ∨ e = Error.LootAlreadyCollected := by
  intro fuel
  induction fuel with
  | zero => intro i collected points e h; cases h
  | succ n ih =>
    intro i collected points e h
    unfold apply_loot_delta at h
    split_ifs at h with h1 h2 h3
    · cases h; exact Or.inr rfl
    · exact ih _ _ _ _ h
    · cases h; exact Or.inl rfl
    · exact ih _ _ _ _ h

lemma end_if_finished_fields (now : ℕ) (g : Game) :
    (end_if_finished now g).turn_index = g.turn_index ∧
      (end_if_finished now g).active_player = g.active_player ∧
      (end_if_finished now g).player1 = g.player1 ∧
      (end_if_finished now g).player2 = g.player2 := by
  unfold end_if_finished
  dsimp only
  split_ifs <;> simp

lemma submit_apply_error (O : Oracle) (session_id player : ℕ) (pt : TurnPublic)
    (proof_id : ℕ) (g : Game) (e : Error) :
    submit_apply O session_id player pt proof_id g = Except.error e →
      e ≠ Error.TimerExpired := by
  unfold submit_apply
  dsimp only
  split
  · rename_i e' heq
    intro h
    cases h
    rcases apply_loot_delta_error _ _ _ _ _ _ _ heq with rfl | rfl <;> simp
  · split_ifs <;> intro h
    all_goals try (cases h; simp)
    all_goals (split at h <;> (try split_ifs at h) <;> ((cases h) <;> simp))

lemma submit_apply_ok_fields (O : Oracle) (session_id player : ℕ) (pt : TurnPublic)
    (proof_id : ℕ) (g g2 : Game) :
    submit_apply O session_id player pt proof_id g = Except.ok g2 →
      g2.turn_index = g.turn_index + 1 ∧
        g2.active_player = (if player = g.player1 then g.player2 else g.player1) := by
  unfold submit_apply
  dsimp only
  split
  · intro h; cases h
  · split_ifs <;> intro h
    all_goals try (cases h)
    all_goals (split at h <;> (try split_ifs at h) <;> ((cases h) <;> simp [*]))

lemma submit_checks_error (O : Oracle) (now session_id player : ℕ) (proof_blob : List ℕ)
    (pt : TurnPublic) (g : Game) (e : Error) :
    submit_checks O now session_id player proof_blob pt g = some e →
      e ≠ Error.LootOutOfBounds ∧ e ≠ Error.LootAlreadyCollected := by
  unfold submit_checks
  dsimp only
  by_cases h1 : g.status ≠ GameStatus.Active
  · rw [if_pos h1]; intro h; cases h; simp
  rw [if_neg h1]
  by_cases h2 : g.deadline_ts.getD 0 ≤ now
  · rw [if_pos h2]; intro h; cases h; simp
  rw [if_neg h2]
  by_cases h3 : player ≠ g.active_player
  · rw [if_pos h3]; intro h; cases h; simp
  rw [if_neg h3]
  by_cases h4 : pt.player ≠ player ∨ pt.session_id ≠ session_id
  · rw [if_pos h4]; intro h; cases h; simp
  rw [if_neg h4]
  by_cases h5 : pt.turn_index ≠ g.turn_index
  · rw [if_pos h5]; intro h; cases h; simp
  rw [if_neg h5]
  by_cases h6 : proof_blob.length = 0
  · rw [if_pos h6]; intro h; cases h; simp
  rw [if_neg h6]
  by_cases h7 : pt.state_hash_before ≠ O.stateHash session_id g
  · rw [if_pos h7]; intro h; cases h; simp
  rw [if_neg h7]
  by_cases h8 : pt.start_pos ≠ current_pos_of player g
  · rw [if_pos h8]; intro h; cases h; simp
  rw [if_neg h8]
  rcases hs : g.session_seed with _ | seed
  · intro h; cases h; simp
  by_cases h9 : O.rollValue seed g.turn_index (if player = g.player1 then 1 else 2) ≠
      pt.rolled_value
  · simp only [if_pos h9]; intro h; cases h; simp
  simp only [if_neg h9]
  by_cases h10 : pt.no_path_flag = true
  · simp only [if_pos h10]
    by_cases h11 : pt.start_pos ≠ pt.end_pos ∨ pt.score_delta ≠ 0 ∨ pt.camera_hits ≠ 0 ∨
        pt.laser_hits ≠ 0 ∨ has_any_set_bit pt.loot_collected_mask_delta = true ∨
        pt.path.length ≠ 1 ∨ pt.path.getD 0 ⟨0, 0⟩ ≠ pt.start_pos
    · simp only [if_pos h11]; intro h; cases h; simp
    simp only [if_neg h11]
    by_cases h12 : exists_any_path_len g.walls (current_pos_of player g) 1 = true
    · simp only [if_pos h12]; intro h; cases h; simp
    simp only [if_neg h12]
    intro h; cases h
  simp only [if_neg h10]
  by_cases h13 : (!validate_path g.walls pt.path
      (O.rollValue seed g.turn_index (if player = g.player1 then 1 else 2))) = true
  · simp only [if_pos h13]; intro h; cases h; simp
  simp only [if_neg h13]
  by_cases h14 : pt.path.getD (pt.path.length - 1) ⟨0, 0⟩ ≠ pt.end_pos
  · simp only [if_pos h14]; intro h; cases h; simp
  simp only [if_neg h14]
  intro h; cases h

lemma submit_turn_verifier_iff_checks (O : Oracle) (now session_id player : ℕ)
    (proof_blob : List ℕ) (pt : TurnPublic) (g : Game) :
    (submit_turn O now session_id player proof_blob pt g).verifierCalled = true ↔
      submit_checks O now session_id player proof_blob pt g = none := by
  unfold submit_turn
  dsimp only
  split
  · rename_i heq
    exact iff_of_false (by simp) (by simp [heq])
  · rename_i e heq
    exact iff_of_false (by simp) (by simp [heq])
  · rename_i heq
    split
    · exact iff_of_true rfl heq
    · exact iff_of_true rfl heq

lemma list_length_one_getD (l : List Position) (a : Position) :
    l.length = 1 → l.getD 0 ⟨0, 0⟩ = a → l = [a] := by
  cases l with
  | nil => intro h; cases h
  | cons p t =>
    cases t with
    | nil => intro _ h2; simp [List.getD] at h2; simp [h2]
    | cons q t2 => intro h; simp at h

lemma has_any_set_bit_eq_false (d : Finset ℕ) : has_any_set_bit d = false ↔ d = ∅ := by
  simp [has_any_set_bit]

lemma submit_checks_none_iff (O : Oracle) (now session_id player : ℕ) (proof_blob : List ℕ)
    (pt : TurnPublic) (g : Game) :
    submit_checks O now session_id player proof_blob pt g = none ↔
      verifier_precondition O now session_id player proof_blob pt g := by
  unfold submit_checks verifier_precondition
  dsimp only
  by_cases h1 : g.status ≠ GameStatus.Active
  · rw [if_pos h1]
    exact iff_of_false (by simp) (fun hpre => h1 hpre.1)
  rw [if_neg h1]
  by_cases h2 : g.deadline_ts.getD 0 ≤ now
  · rw [if_pos h2]
    exact iff_of_false (by simp) (fun hpre => absurd hpre.2.1 (not_lt.mpr h2))
  rw [if_neg h2]
  by_cases h3 : player ≠ g.active_player
  · rw [if_pos h3]
    exact iff_of_false (by simp) (fun hpre => h3 hpre.2.2.1)
  rw [if_neg h3]
  by_cases h4 : pt.player ≠ player ∨ pt.session_id ≠ session_id
  · rw [if_pos h4]
    refine iff_of_false (by simp) ?_
    rintro ⟨-, -, -, hc4, hc5, -⟩
    rcases h4 with h | h
    · exact h hc4
    · exact h hc5
  rw [if_neg h4]
  by_cases h5 : pt.turn_index ≠ g.turn_index
  · rw [if_pos h5]
    exact iff_of_false (by simp) (fun hpre => h5 hpre.2.2.2.2.2.1)
  rw [if_neg h5]
  by_cases h6 : proof_blob.length = 0
  · rw [if_pos h6]
    refine iff_of_false (by simp) ?_
    rintro ⟨-, -, -, -, -, -, hc7, -⟩
    exact hc7 (List.length_eq_zero.mp h6)
  rw [if_neg h6]
  by_cases h7 : pt.state_hash_before ≠ O.stateHash session_id g
  · rw [if_pos h7]
    exact iff_of_false (by simp) (fun hpre => h7 hpre.2.2.2.2.2.2.2.1)
  rw [if_neg h7]
  by_cases h8 : pt.start_pos ≠ current_pos_of player g
  · rw [if_pos h8]
    exact iff_of_false (by simp) (fun hpre => h8 hpre.2.2.2.2.2.2.2.2.1)
  rw [if_neg h8]
  rcases hs : g.session_seed with _ | seed
  · refine iff_of_false (by simp) ?_
    rintro ⟨-, -, -, -, -, -, -, -, -, seed', hseed', -⟩
    cases hseed'
  by_cases h9 : O.rollValue seed g.turn_index (if player = g.player1 then 1 else 2) ≠
      pt.rolled_value
  · simp only [if_pos h9]
    refine iff_of_false (by simp) ?_
    rintro ⟨-, -, -, -, -, -, -, -, -, seed', hseed', hroll, -⟩
    cases hseed'
    exact h9 hroll.symm
  simp only [if_neg h9]
  by_cases h10 : pt.no_path_flag = true
  · simp only [if_pos h10]
    by_cases h11 : pt.start_pos ≠ pt.end_pos ∨ pt.score_delta ≠ 0 ∨ pt.camera_hits ≠ 0 ∨
        pt.laser_hits ≠ 0 ∨ has_any_set_bit pt.loot_collected_mask_delta = true ∨
        pt.path.length ≠ 1 ∨ pt.path.getD 0 ⟨0, 0⟩ ≠ pt.start_pos
    · simp only [if_pos h11]
      refine iff_of_false (by simp) ?_
      rintro ⟨-, -, -, -, -, -, -, -, -, seed', hseed', -, hbranch⟩
      obtain ⟨hb1, hb2, hb3, hb4, hb5, hb6, hb7⟩ := hbranch
      rcases h11 with h | h | h | h | h | h | h
      · exact h hb1
      · exact h hb2
      · exact h hb3
      · exact h hb4
      · rw [hb5] at h; simp [has_any_set_bit] at h
      · rw [hb6] at h; simp at h
      · rw [hb6] at h; simp at h
    simp only [if_neg h11]
    push_neg at h11
    obtain ⟨hb1, hb2, hb3, hb4, hb5, hb6, hb7⟩ := h11
    by_cases h12 : exists_any_path_len g.walls (current_pos_of player g) 1 = true
    · simp only [if_pos h12]
      refine iff_of_false (by simp) ?_
      rintro ⟨-, -, -, -, -, -, -, -, -, seed', hseed', -, hbranch⟩
      rw [h12] at hbranch
      exact absurd hbranch.2.2.2.2.2.2 (by simp)
    simp only [if_neg h12]
    push_neg at h1 h2 h3 h4 h5 h7 h8
    have hdelta : pt.loot_collected_mask_delta = ∅ := by
      refine (has_any_set_bit_eq_false _).mp ?_
      revert hb5
      cases has_any_set_bit pt.loot_collected_mask_delta <;> simp
    have hpath : pt.path = [pt.start_pos] := list_length_one_getD _ _ hb6 hb7
    have hef : exists_any_path_len g.walls (current_pos_of player g) 1 = false := by
      revert h12
      cases exists_any_path_len g.walls (current_pos_of player g) 1 <;> simp
    refine iff_of_true trivial
      ⟨h1, h2, h3, h4.1, h4.2, h5, fun hnil => h6 (by simp [hnil]), h7, h8, seed, rfl, ?_, ?_⟩
    · push_neg at h9; exact h9.symm
    · exact ⟨hb1, hb2, hb3, hb4, hdelta, hpath, hef⟩
  simp only [if_neg h10]
  by_cases h13 : (!validate_path g.walls pt.path
      (O.rollValue seed g.turn_index (if player = g.player1 then 1 else 2))) = true
  · simp only [if_pos h13]
    refine iff_of_false (by simp) ?_
    rintro ⟨-, -, -, -, -, -, -, -, -, seed', hseed', hroll, hbranch⟩
    cases hseed'
    obtain ⟨hv, -⟩ := hbranch
    rw [hroll] at hv
    rw [hv] at h13
    simp at h13
  simp only [if_neg h13]
  by_cases h14 : pt.path.getD (pt.path.length - 1) ⟨0, 0⟩ ≠ pt.end_pos
  · simp only [if_pos h14]
    refine iff_of_false (by simp) ?_
    rintro ⟨-, -, -, -, -, -, -, -, -, seed', hseed', -, hbranch⟩
    exact h14 hbranch.2
  simp only [if_neg h14]
  push_neg at h1 h2 h3 h4 h5 h7 h8 h9 h14
  have hv : validate_path g.walls pt.path
      (O.rollValue seed g.turn_index (if player = g.player1 then 1 else 2)) = true := by
    revert h13
    cases validate_path g.walls pt.path
      (O.rollValue seed g.turn_index (if player = g.player1 then 1 else 2)) <;> simp
  rw [h9] at hv
  exact iff_of_true trivial
    ⟨h1, h2, h3, h4.1, h4.2, h5, fun hnil => h6 (by simp [hnil]), h7, h8, seed, rfl, h9.symm,
      hv, h14⟩

lemma submit_turn_res_none_stored (O : Oracle) (now session_id player : ℕ)
    (proof_blob : List ℕ) (pt : TurnPublic) (g : Game) :
    (submit_turn O now session_id player proof_blob pt g).res = none →
      ∃ g2, submit_apply O session_id player pt
          (O.verify proof_blob (O.turnHash pt)) g = Except.ok g2 ∧
        (submit_turn O now session_id player proof_blob pt g).stored =
          end_if_finished now g2 := by
  unfold submit_turn
  dsimp only
  split
  · intro h; cases h
  · intro h; cases h
  · split
    · intro h; cases h
    · rename_i g2 heq2
      intro _
      exact ⟨g2, heq2, rfl⟩

/-! ### Claim theorems -/

/-- C2 (amended): a rejected `submit_turn` leaves the stored game unchanged on
every failure path except `TimerExpired`; the `TimerExpired` rejection stores
exactly the `end_if_finished` finalization of the pre-call state (and applies
no part of the turn). -/
theorem submit_turn_failures_leave_state_unchanged (O : Oracle)
    (now session_id player : ℕ) (proof_blob : List ℕ) (pt : TurnPublic) (g : Game) :
    (∀ e, (submit_turn O now session_id player proof_blob pt g).res = some e →
        e ≠ Error.TimerExpired →
        (submit_turn O now session_id player proof_blob pt g).stored = g) ∧
    ((submit_turn O now session_id player proof_blob pt g).res = some Error.TimerExpired →
      (submit_turn O now session_id player proof_blob pt g).stored = end_if_finished now g) := by
  unfold submit_turn
  dsimp only
  split
  · constructor
    · intro e he hne
      cases he
      exact absurd rfl hne
    · intro _; rfl
  · rename_i e' hover heq
    constructor
    · intro e he hne; rfl
    · intro hT
      cases hT
      exact (hover rfl).elim
  · split
    · rename_i e2 heq2
      constructor
      · intro e he hne; rfl
      · intro hT
        cases hT
        exact absurd rfl (submit_apply_error _ _ _ _ _ _ _ heq2)
    · constructor
      · intro e he hne; cases he
      · intro hT; cases hT

/-- C6: every accepted turn stores a turn index exactly one greater than
before the call, and the stored active-player pointer is the other registered
player (player two if the submitter was player one, else player one). -/
theorem accepted_turn_advances_index_and_alternates (O : Oracle)
    (now session_id player : ℕ) (proof_blob : List ℕ) (pt : TurnPublic) (g : Game) :
    (submit_turn O now session_id player proof_blob pt g).res = none →
      (submit_turn O now session_id player proof_blob pt g).stored.turn_index =
          g.turn_index + 1 ∧
        (submit_turn O now session_id player proof_blob pt g).stored.active_player =
          (if player = g.player1 then g.player2 else g.player1) := by
  intro h
  obtain ⟨g2, heq2, hst⟩ :=
    submit_turn_res_none_stored O now session_id player proof_blob pt g h
  obtain ⟨ht, ha⟩ := submit_apply_ok_fields O session_id player pt _ g g2 heq2
  obtain ⟨hf1, hf2, -, -⟩ := end_if_finished_fields now g2
  rw [hst]
  exact ⟨by rw [hf1, ht], by rw [hf2, ha]⟩

/-- C9: `end_if_finished` is a no-op when the session is already `Ended` or
when no qualifying condition holds (deadline not reached and loot not fully
collected); when a qualifying condition holds it marks the session `Ended`
and records the higher-scoring player as winner, ties going to player one. -/
theorem end_if_finished_idempotent_and_winner (now : ℕ) (g : Game) :
    (g.status = GameStatus.Ended → end_if_finished now g = g) ∧
    (g.status ≠ GameStatus.Ended → now < g.deadline_ts.getD U64_MAX →
      ¬ g.loot ⊆ g.loot_collected → end_if_finished now g = g) ∧
    (g.status ≠ GameStatus.Ended →
      (g.deadline_ts.getD U64_MAX ≤ now ∨ g.loot ⊆ g.loot_collected) →
      (end_if_finished now g).status = GameStatus.Ended ∧
        (end_if_finished now g).winner =
          some (if g.player2_score ≤ g.player1_score then g.player1 else g.player2)) := by
  unfold end_if_finished
  dsimp only
  refine ⟨?_, ?_, ?_⟩
  · intro h
    rw [if_pos h]
  · intro h hd hl
    rw [if_neg h]
    have h1 : decide (g.deadline_ts.getD U64_MAX ≤ now) = false :=
      decide_eq_false (by omega)
    have h2 : is_full_collection g.loot g.loot_collected = false := by
      simp [is_full_collection, hl]
    simp [h1, h2]
  · intro h hcond
    rw [if_neg h]
    have hc : (!decide (g.deadline_ts.getD U64_MAX ≤ now) &&
        !is_full_collection g.loot g.loot_collected) = false := by
      rcases hcond with hd | hl
      · simp [decide_eq_true hd]
      · simp [is_full_collection, hl]
    simp only [hc, Bool.false_eq_true, if_false]
    constructor
    · trivial
    · simp [decide_eq_true_eq]

/-- C4: the path validator accepts exactly the sequences of length between 2
and `rolled + 1` whose cells are all in bounds and off-wall and whose
consecutive cells are at Manhattan distance exactly 1; in particular a
length-1 path and a length `rolled + 2` path are rejected. -/
theorem validate_path_iff_spec (walls : Finset ℕ) (path : List Position) (rolled : ℕ) :
    validate_path walls path rolled = true ↔
      2 ≤ path.length ∧ path.length ≤ rolled + 1 ∧
        (∀ p ∈ path, cell_ok walls p) ∧ List.Chain' step_adjacent path := by
  unfold validate_path
  split_ifs with h
  · constructor
    · intro hc; cases hc
    · rintro ⟨hl1, hl2, -⟩
      omega
  · rw [path_cells_ok_none_iff]
    push_neg at h
    constructor
    · rintro ⟨hc, hch⟩
      exact ⟨h.1, h.2, hc, hch⟩
    · rintro ⟨-, -, hc, hch⟩
      exact ⟨hc, hch⟩

lemma mem_fog_square (cx cy b : ℕ) :
    b ∈ fog_square cx cy ↔
      ∃ x y, fog_lo cx ≤ x ∧ x ≤ fog_hi cx MAP_W ∧ fog_lo cy ≤ y ∧ y ≤ fog_hi cy MAP_H ∧
        b = idx x y := by
  unfold fog_square
  rw [Finset.mem_filter, Finset.mem_range]
  have hhx : fog_hi cx MAP_W < MAP_W := fog_hi_lt cx MAP_W (by norm_num [MAP_W])
  have hhy : fog_hi cy MAP_H < MAP_H := fog_hi_lt cy MAP_H (by norm_num [MAP_H])
  have hhx' : fog_hi cx MAP_W < 12 := hhx
  have hhy' : fog_hi cy MAP_H < 12 := hhy
  constructor
  · rintro ⟨hb, hx1, hx2, hy1, hy2⟩
    have hb' : b < 144 := hb
    refine ⟨b % MAP_W, b / MAP_W, hx1, hx2, hy1, hy2, ?_⟩
    show b = b / 12 * 12 + b % 12
    omega
  · rintro ⟨x, y, hx1, hx2, hy1, hy2, rfl⟩
    have hx12 : x < 12 := lt_of_le_of_lt hx2 hhx'
    have hy12 : y < 12 := lt_of_le_of_lt hy2 hhy'
    refine ⟨?_, ?_, ?_, ?_, ?_⟩
    · show y * 12 + x < 144
      omega
    · show fog_lo cx ≤ (y * 12 + x) % 12
      omega
    · show (y * 12 + x) % 12 ≤ fog_hi cx MAP_W
      omega
    · show fog_lo cy ≤ (y * 12 + x) / 12
      omega
    · show (y * 12 + x) / 12 ≤ fog_hi cy MAP_H
      omega

/-- C7: each `reveal_fog_4x4` call only grows the fog bitmask (a revealed
cell is never hidden again), and the result is exactly the previous mask
united with the clamped symmetric square neighbourhood of the centre, clipped
to board bounds. -/
theorem reveal_fog_monotone_and_exact (fog : Finset ℕ) (cx cy : ℕ) :
    fog ⊆ reveal_fog_4x4 fog cx cy ∧
      reveal_fog_4x4 fog cx cy = fog ∪ fog_square cx cy := by
  have hchar : ∀ b, b ∈ reveal_fog_4x4 fog cx cy ↔ b ∈ fog ∨ b ∈ fog_square cx cy := by
    intro b
    rw [mem_reveal_fog, mem_fog_square]
  constructor
  · intro b hb
    exact (hchar b).mpr (Or.inl hb)
  · ext b
    rw [hchar b, Finset.mem_union]

/-- C8: the hazard-hit counts are per-hazard-instance booleans — the camera
count is the number of cameras whose Manhattan radius contains at least one
path cell, the laser count the number of lasers whose axis-aligned segment
contains at least one path cell — each hazard counting at most once. -/
theorem compute_hazard_hits_per_hazard_booleans (path : List Position)
    (cameras : List Camera) (lasers : List Laser) :
    compute_hazard_hits path cameras lasers =
      ((cameras.filter fun cam => decide (∃ p ∈ path, camera_sees cam p)).length,
       (lasers.filter fun laser => decide (∃ p ∈ path, on_laser_segment laser p)).length) ∧
      (compute_hazard_hits path cameras lasers).1 ≤ cameras.length ∧
      (compute_hazard_hits path cameras lasers).2 ≤ lasers.length := by
  have hc : (fun cam => path_hits_camera path cam) =
      fun cam => decide (∃ p ∈ path, camera_sees cam p) := by
    funext cam
    exact Bool.eq_iff_iff.mpr (by rw [path_hits_camera_iff]; simp)
  have hl : (fun laser => path_hits_laser path laser) =
      fun laser => decide (∃ p ∈ path, on_laser_segment laser p) := by
    funext laser
    exact Bool.eq_iff_iff.mpr (by rw [path_hits_laser_iff]; simp)
  refine ⟨?_, ?_, ?_⟩
  · unfold compute_hazard_hits
    rw [List.countP_eq_length_filter, List.countP_eq_length_filter, hc, hl]
  · exact List.countP_le_length _
  · exact List.countP_le_length _

/-- C5: for every seed (modelled as the seeded draw function), `generate_map`
places at most 18 walls, 24 collectibles, 3 cameras and 2 lasers; every wall,
collectible and camera lies on the board and outside both 3×3 spawn safe
zones (around `(1,1)` and `(MAP_W-2, MAP_H-2) = (10,10)`); no collectible
overlaps a wall; and generation is total — an exhausted draw budget just
yields fewer objects. -/
theorem generate_map_bounds_and_safe_zones (draw : ℕ → ℕ → ℕ) :
    (generate_map draw).walls.card ≤ 18 ∧
    (generate_map draw).loot.card ≤ 24 ∧
    (generate_map draw).cameras.length ≤ 3 ∧
    (generate_map draw).lasers.length ≤ 2 ∧
    (∀ b ∈ (generate_map draw).walls,
      b < CELL_COUNT ∧ near_spawn (b % MAP_W) (b / MAP_W) = false) ∧
    (∀ b ∈ (generate_map draw).loot,
      b < CELL_COUNT ∧ near_spawn (b % MAP_W) (b / MAP_W) = false ∧
        b ∉ (generate_map draw).walls) ∧
    (∀ cam ∈ (generate_map draw).cameras, near_spawn cam.x cam.y = false) := by
  unfold generate_map
  dsimp only
  refine ⟨?_, ?_, ?_, ?_, ?_, ?_, ?_⟩
  · simpa using wall_loop_card draw 500 0 0 ∅
  · simpa using loot_loop_card draw _ 1000 0 0 ∅
  · simpa using camera_loop_length draw 3 0 []
  · simpa using laser_loop_length draw 2 0 []
  · intro b hb
    rcases wall_loop_mem draw 500 0 0 ∅ b hb with h | h
    · exact absurd h (Finset.not_mem_empty b)
    · exact h
  · intro b hb
    rcases loot_loop_mem draw _ 1000 0 0 ∅ b hb with h | h
    · exact absurd h (Finset.not_mem_empty b)
    · exact h
  · intro cam hcam
    rcases camera_loop_mem draw 3 0 [] cam hcam with h | h
    · exact absurd h (List.not_mem_nil cam)
    · exact h

/-- C3 (amended): the external Verifier is invoked exactly when the checks
that precede the verifier call pass — session active, timer, active player,
turn binding (player/session/index/before-digest/start position), proof
present, dice value, and path or no-path validation. The loot-delta,
hazard-hit, score-delta and after-digest reconciliation checks run only after
the Verifier call, so their failures do not prevent the invocation. -/
theorem verifier_invoked_iff_prechecks_pass (O : Oracle) (now session_id player : ℕ)
    (proof_blob : List ℕ) (pt : TurnPublic) (g : Game) :
    (submit_turn O now session_id player proof_blob pt g).verifierCalled = true ↔
      verifier_precondition O now session_id player proof_blob pt g := by
  rw [submit_turn_verifier_iff_checks, submit_checks_none_iff]

lemma submit_turn_res_some (O : Oracle) (now session_id player : ℕ)
    (proof_blob : List ℕ) (pt : TurnPublic) (g : Game) (e : Error) :
    (submit_turn O now session_id player proof_blob pt g).res = some e →
      submit_checks O now session_id player proof_blob pt g = some e ∨
        submit_apply O session_id player pt (O.verify proof_blob (O.turnHash pt)) g =
          Except.error e := by
  unfold submit_turn
  dsimp only
  split
  · rename_i heq
    intro h
    cases h
    exact Or.inl heq
  · rename_i e' hover heq
    intro h
    cases h
    exact Or.inl heq
  · split
    · rename_i e2 heq2
      intro h
      cases h
      exact Or.inr heq2
    · intro h
      cases h

lemma submit_apply_no_loot_error (O : Oracle) (session_id player : ℕ) (pt : TurnPublic)
    (proof_id : ℕ) (g : Game) (e : Error) :
    submit_apply O session_id player pt proof_id g = Except.error e →
      e ≠ Error.LootOutOfBounds ∧ e ≠ Error.LootAlreadyCollected := by
  have hd : ∀ b ∈ (if pt.no_path_flag = true then (∅ : Finset ℕ)
      else collect_loot_delta_from_path g.loot g.loot_collected pt.path),
      b ∈ g.loot ∧ b ∉ g.loot_collected := by
    split_ifs with hnp
    · simp
    · exact mem_collect_loot_delta _ _ _
  obtain ⟨out, hout⟩ := apply_loot_delta_ok g.loot _ CELL_COUNT 0 g.loot_collected 0
    (fun b hb => (hd b hb).1) (fun b hb hbc => absurd hbc (hd b hb).2)
  unfold submit_apply
  dsimp only
  split
  · rename_i e0 heq
    rw [heq] at hout
    cases hout
  · split_ifs <;> intro h
    all_goals try (cases h; simp)
    all_goals (split at h <;> (try split_ifs at h) <;> ((cases h) <;> simp))

/-- C10: the loot delta reconciled by `submit_turn` is derived by the
contract itself from the path and the current loot/collected bitsets and only
ever contains declared, not-yet-collected loot cells; consequently the
`LootOutOfBounds` and `LootAlreadyCollected` branches are unreachable, and a
submitted delta claiming an already-collected cell is rejected by the
post-verifier reconciliation as a mask mismatch (`InvalidTurnData`) instead. -/
theorem loot_reconciliation_unreachable_errors (O : Oracle) (now session_id player : ℕ)
    (proof_blob : List ℕ) (pt : TurnPublic) (g : Game) :
    ((submit_turn O now session_id player proof_blob pt g).res ≠
        some Error.LootOutOfBounds ∧
      (submit_turn O now session_id player proof_blob pt g).res ≠
        some Error.LootAlreadyCollected) ∧
    (∀ b ∈ collect_loot_delta_from_path g.loot g.loot_collected pt.path,
      b ∈ g.loot ∧ b ∉ g.loot_collected) ∧
    (∀ proof_id b, b ∈ pt.loot_collected_mask_delta → b ∈ g.loot_collected →
      submit_apply O session_id player pt proof_id g =
        Except.error Error.InvalidTurnData) := by
  have hd : ∀ b ∈ (if pt.no_path_flag = true then (∅ : Finset ℕ)
      else collect_loot_delta_from_path g.loot g.loot_collected pt.path),
      b ∈ g.loot ∧ b ∉ g.loot_collected := by
    split_ifs with hnp
    · simp
    · exact mem_collect_loot_delta _ _ _
  refine ⟨⟨?_, ?_⟩, mem_collect_loot_delta _ _ _, ?_⟩
  · intro hres
    rcases submit_turn_res_some O now session_id player proof_blob pt g _ hres with hc | ha
    · exact absurd rfl (submit_checks_error O now session_id player proof_blob pt g _ hc).1
    · exact absurd rfl (submit_apply_no_loot_error O session_id player pt _ g _ ha).1
  · intro hres
    rcases submit_turn_res_some O now session_id player proof_blob pt g _ hres with hc | ha
    · exact absurd rfl (submit_checks_error O now session_id player proof_blob pt g _ hc).2
    · exact absurd rfl (submit_apply_no_loot_error O session_id player pt _ g _ ha).2
  · intro proof_id b hbdelta hbcol
    obtain ⟨out, hout⟩ := apply_loot_delta_ok g.loot _ CELL_COUNT 0 g.loot_collected 0
      (fun c hc => (hd c hc).1) (fun c hc hcc => absurd hcc (hd c hc).2)
    obtain ⟨collected, points⟩ := out
    have hne : pt.loot_collected_mask_delta ≠
        (if pt.no_path_flag = true then (∅ : Finset ℕ)
          else collect_loot_delta_from_path g.loot g.loot_collected pt.path) := by
      intro heqd
      exact (hd b (heqd ▸ hbdelta)).2 hbcol
    unfold submit_apply
    dsimp only
    rw [hout]
    dsimp only
    by_cases hnp : pt.no_path_flag = true
    · rw [if_pos hnp] at hne
      simp only [if_pos hnp]
      split_ifs with hhz
      · rfl
      · rfl
    · rw [if_neg hnp] at hne
      simp only [if_neg hnp]
      split_ifs with hhz
      · rfl
      · rfl

/-- A game with the deadline already passed at call time (`now = 10`,
deadline 5): used to exhibit the `TimerExpired` storage write. -/
def timerGame : Game := { baseGame with deadline_ts := some 5 }

/-- A session already in the `Ended` state. -/
def endedGame : Game := { baseGame with status := GameStatus.Ended }

/-- A turn whose declared score delta (5) does not reconcile with the engine
derivation (0). -/
def badScoreTurn : TurnPublic := { okTurn with score_delta := 5 }

/-- A turn whose submitted loot delta claims cell 5. -/
def claimedCollectedTurn : TurnPublic := { okTurn with loot_collected_mask_delta := {5} }

/-- A game in which loot cell 5 is already collected. -/
def collectedGame : Game := { baseGame with loot_collected := {5} }

/-- C1 (code bug): with player one standing on the walkable spawn cell
`(1,1)` and all four orthogonal neighbours walls — so zero single steps are
possible — the code still rejects the well-formed no-path claim with
`InvalidNoPathFlag`: `has_any_path`'s depth-0 base case returns `true` before
the stepped-onto cell is ever checked, so `exists_any_path_len walls pos 1`
is `true` whenever the start cell itself is walkable. This contradicts the
spec and the code's own comment ("no_path_flag is valid only when even a
single step is impossible (player is fully surrounded by walls)"). -/
theorem no_path_claim_rejected_when_boxed_in :
    is_walkable boxedGame.walls 1 1 = true ∧
    (is_walkable boxedGame.walls 2 1 = false ∧ is_walkable boxedGame.walls 0 1 = false ∧
      is_walkable boxedGame.walls 1 2 = false ∧ is_walkable boxedGame.walls 1 0 = false) ∧
    exists_any_path_len boxedGame.walls ⟨1, 1⟩ 1 = true ∧
    (submit_turn trivOracle 0 0 1 [0] { boxedTurn with no_path_flag := true }
        boxedGame).res = some Error.InvalidNoPathFlag := by
  decide

/-- C2 counterexample: a submission against an expired deadline is rejected
with `TimerExpired`, yet the stored game is no longer byte-identical to the
pre-call state — `end_if_finished` has finalized it before the rejection. -/
theorem timer_expiry_mutates_stored_game :
    (submit_turn trivOracle 10 0 1 [0] okTurn timerGame).res = some Error.TimerExpired ∧
    (submit_turn trivOracle 10 0 1 [0] okTurn timerGame).stored ≠ timerGame := by
  decide

/-- Witness for C2's amended theorem at a concrete rejected call
(`GameAlreadyEnded` on an ended session leaves storage unchanged). -/
theorem submit_turn_failures_leave_state_unchanged_witness :
    (submit_turn trivOracle 0 0 1 [0] okTurn endedGame).stored = endedGame :=
  (submit_turn_failures_leave_state_unchanged trivOracle 0 0 1 [0] okTurn endedGame).1
    Error.GameAlreadyEnded (by decide) (by decide)

/-- C3 counterexample: a turn failing the score-delta reconciliation — one of
the local checks — is rejected with `InvalidScoreDelta`, yet the external
Verifier has already been invoked. -/
theorem verifier_called_despite_failed_score_reconciliation :
    (submit_turn trivOracle 0 0 1 [0] badScoreTurn baseGame).res =
      some Error.InvalidScoreDelta ∧
    (submit_turn trivOracle 0 0 1 [0] badScoreTurn baseGame).verifierCalled = true := by
  decide

/-- Witness for C6 at a concrete accepted single-step turn. -/
theorem accepted_turn_advances_index_and_alternates_witness :
    (submit_turn trivOracle 0 0 1 [0] okTurn baseGame).stored.turn_index =
        baseGame.turn_index + 1 ∧
      (submit_turn trivOracle 0 0 1 [0] okTurn baseGame).stored.active_player =
        (if (1 : ℕ) = baseGame.player1 then baseGame.player2 else baseGame.player1) :=
  accepted_turn_advances_index_and_alternates trivOracle 0 0 1 [0] okTurn baseGame (by decide)

/-- Witness for C9 at a concrete already-ended session. -/
theorem end_if_finished_idempotent_and_winner_witness :
    end_if_finished 0 endedGame = endedGame :=
  (end_if_finished_idempotent_and_winner 0 endedGame).1 (by decide)

/-- Witness for C5 at the concrete draw function constantly returning 5,
which places a single wall on cell 5 = (5,0). -/
theorem generate_map_bounds_and_safe_zones_witness :
    5 < CELL_COUNT ∧ near_spawn (5 % MAP_W) (5 / MAP_W) = false :=
  (generate_map_bounds_and_safe_zones (fun _ _ => 5)).2.2.2.2.1 5 (by decide)

/-- Witness for C10 at a concrete submission claiming already-collected
loot. -/
theorem loot_reconciliation_unreachable_errors_witness :
    submit_apply trivOracle 0 1 claimedCollectedTurn 7 collectedGame =
      Except.error Error.InvalidTurnData :=
  (loot_reconciliation_unreachable_errors trivOracle 0 0 1 [0] claimedCollectedTurn
      collectedGame).2.2 7 5 (by decide) (by decide)

end Heist
